import Mathlib

/-
Verification of the drawing engine specified for the jimmahoney/drawings
repository.  The repository ships only a demo notebook
(src/drawings_demo.ipynb); the engine module drawing.py that the notebook
imports is not part of the sources, so every definition below is modelled
from the specification text, as its doc comment records.
-/

/-- Modelled from the spec: drawing.py is missing; RGBA color with four
uint8 channels, each stored as a natural number in [0, 255]. -/
structure Color where
  r : Nat
  g : Nat
  b : Nat
  a : Nat
deriving DecidableEq, Repr

/-- Modelled from the spec: channel validity, each channel in [0, 255]. -/
def validColor (c : Color) : Bool :=
  decide (c.r ≤ 255) && decide (c.g ≤ 255) && decide (c.b ≤ 255) && decide (c.a ≤ 255)

/-- Rounding to the nearest integer on write-back, as the spec requires for
blend results, landing in the naturals. -/
def roundNat (q : ℚ) : Nat :=
  (⌊q + 1/2⌋).toNat

/-- Modelled from the spec: drawing.py is missing; alpha-over compositing,
outA = topA + bottomA*(1-topA), outRGB = (topRGB*topA +
bottomRGB*bottomA*(1-topA)) / outA, with channels normalized to [0,1]
rationals for the arithmetic and rounded back to integers, and the bottom
color returned unchanged when topA = 0. -/
def blend (top bottom : Color) : Color :=
  if top.a = 0 then bottom
  else
    let ta : ℚ := (top.a : ℚ) / 255
    let ba : ℚ := (bottom.a : ℚ) / 255
    let oa : ℚ := ta + ba * (1 - ta)
    { r := roundNat (255 * (((top.r : ℚ) / 255 * ta + (bottom.r : ℚ) / 255 * ba * (1 - ta)) / oa))
      g := roundNat (255 * (((top.g : ℚ) / 255 * ta + (bottom.g : ℚ) / 255 * ba * (1 - ta)) / oa))
      b := roundNat (255 * (((top.b : ℚ) / 255 * ta + (bottom.b : ℚ) / 255 * ba * (1 - ta)) / oa))
      a := roundNat (255 * oa) }

theorem roundNat_natCast (n : Nat) : roundNat (n : ℚ) = n := by
  unfold roundNat
  have h : ⌊(n : ℚ) + 1/2⌋ = (n : ℤ) := by
    rw [Int.floor_eq_iff]
    constructor
    · push_cast; linarith
    · push_cast; linarith
  rw [h]
  exact Int.toNat_natCast n

theorem roundNat_mul_div (n : Nat) : roundNat (255 * ((n : ℚ) / 255)) = n := by
  rw [show (255 : ℚ) * ((n : ℚ) / 255) = (n : ℚ) by field_simp]
  exact roundNat_natCast n

/-- A fully opaque top color replaces the bottom color under blend. -/
theorem blend_opaque (c bottom : Color) (h : c.a = 255) : blend c bottom = c := by
  obtain ⟨r, g, b, a⟩ := c
  simp only at h
  subst h
  unfold blend
  norm_num
  refine ⟨roundNat_mul_div r, roundNat_mul_div g, roundNat_mul_div b, ?_⟩
  rw [show (255 : ℚ) = ((255 : Nat) : ℚ) by norm_num]
  exact roundNat_natCast 255

/-- C1: blend(c, bottom) equals bottom when c.a = 0 and equals c when
c.a = 255, for every Color bottom. -/
theorem C1_blend_identity (c bottom : Color) :
    (c.a = 0 → blend c bottom = bottom) ∧ (c.a = 255 → blend c bottom = c) := by
  constructor
  · intro h
    unfold blend
    simp [h]
  · intro h
    exact blend_opaque c bottom h

theorem C1_blend_identity_witness :
    blend ⟨7, 8, 9, 0⟩ ⟨1, 2, 3, 200⟩ = ⟨1, 2, 3, 200⟩ ∧
    blend ⟨1, 2, 3, 255⟩ ⟨7, 8, 9, 200⟩ = ⟨1, 2, 3, 255⟩ :=
  ⟨(C1_blend_identity ⟨7, 8, 9, 0⟩ ⟨1, 2, 3, 200⟩).1 rfl,
   (C1_blend_identity ⟨1, 2, 3, 255⟩ ⟨7, 8, 9, 200⟩).2 rfl⟩

/-- Modelled from the spec: drawing.py is missing; a 2-D point with float
coordinates (modelled as rationals), optionally carrying a per-point color
and size for scatter use. -/
structure Point where
  x : ℚ
  y : ℚ
  color : Option Color
  size : Option ℚ
deriving DecidableEq, Repr

/-- Modelled from the spec: component-wise Point addition, Point + Point. -/
def Point.add (p q : Point) : Point :=
  ⟨p.x + q.x, p.y + q.y, none, none⟩

instance : Add Point := ⟨Point.add⟩

/-- Modelled from the spec: component-wise scalar multiplication,
scalar * Point. -/
def Point.smul (k : ℚ) (p : Point) : Point :=
  ⟨k * p.x, k * p.y, none, none⟩

instance : SMul ℚ Point := ⟨Point.smul⟩

/-- C4: Point addition and scalar multiplication are component-wise. -/
theorem C4_point_arithmetic (p q : Point) (k : ℚ) :
    (p + q).x = p.x + q.x ∧ (p + q).y = p.y + q.y ∧
    (k • p).x = k * p.x ∧ (k • p).y = k * p.y :=
  ⟨rfl, rfl, rfl, rfl⟩

/-- Modelled from the spec: the error taxonomy of the drawing engine. -/
inductive DrawingError where
  | invalidColorSpec
  | invalidShape
  | notRendered
  | encodeFailure
deriving DecidableEq, Repr

/-- The sixteen lowercase hex digit characters in ascending value order. -/
def hexDigitChars : List Char :=
  ("0123456789abcdef").toList

/-- Lowercase hex digit for a value below 16. -/
def toHexDigit (n : Nat) : Char :=
  hexDigitChars.getD n 'f'

/-- Value of a hex digit character, case-insensitive; none if not hex. -/
def hexDigitVal (c : Char) : Option Nat :=
  List.indexOf? (Char.toLower c) hexDigitChars

def isHexDigit (c : Char) : Bool :=
  (hexDigitVal c).isSome


/-- Numeric value of a hex digit character, zero if not hex. -/
def hexVal (c : Char) : Nat :=
  (hexDigitVal c).getD 0

/-- Two lowercase hex digits of a byte value. -/
def byteHex (n : Nat) : List Char :=
  [toHexDigit (n / 16), toHexDigit (n % 16)]

/-- Modelled from the spec: drawing.py is missing; the canonical hex string
a Color formats to, eight lowercase hex digits after a hash mark. -/
def formatColor (c : Color) : List Char :=
  '#' :: (byteHex c.r ++ byteHex c.g ++ byteHex c.b ++ byteHex c.a)

/-- Modelled from the spec: drawing.py is missing; the named-color table,
whose exact contents the spec leaves configurable; these entries cover the
names the demo notebook uses, mapped to their usual RGBA values. -/
def namedColors : List (List Char × Color) :=
  [(("yellow").toList, ⟨255, 255, 0, 255⟩),
   (("cyan").toList, ⟨0, 255, 255, 255⟩),
   (("floralwhite").toList, ⟨255, 250, 240, 255⟩),
   (("blue").toList, ⟨0, 0, 255, 255⟩),
   (("green").toList, ⟨0, 128, 0, 255⟩),
   (("red").toList, ⟨255, 0, 0, 255⟩),
   (("white").toList, ⟨255, 255, 255, 255⟩),
   (("black").toList, ⟨0, 0, 0, 255⟩),
   (("darkblue").toList, ⟨0, 0, 139, 255⟩)]

/-- The byte encoded by the hex digits at positions i and i+1. -/
def pairAt (ds : List Char) (i : Nat) : Nat :=
  16 * hexVal (ds.getD i '0') + hexVal (ds.getD (i + 1) '0')

/-- Modelled from the spec: decoding of the digits after the hash mark of a
hex color string, six digits giving an opaque color and eight digits giving
an explicit alpha; anything else is rejected. -/
def parseHexDigits (ds : List Char) : Except DrawingError Color :=
  if ds.length = 6 ∧ ds.all isHexDigit then
    .ok ⟨pairAt ds 0, pairAt ds 2, pairAt ds 4, 255⟩
  else if ds.length = 8 ∧ ds.all isHexDigit then
    .ok ⟨pairAt ds 0, pairAt ds 2, pairAt ds 4, pairAt ds 6⟩
  else .error .invalidColorSpec

/-- Modelled from the spec: drawing.py is missing; color string parsing,
accepting a case-insensitive named color or a hash-mark hex string and
failing with invalidColorSpec on everything else. -/
def parse (s : List Char) : Except DrawingError Color :=
  match s with
  | [] => .error .invalidColorSpec
  | c :: rest =>
    if c = '#' then parseHexDigits rest
    else
      match List.lookup ((c :: rest).map Char.toLower) namedColors with
      | some col => .ok col
      | none => .error .invalidColorSpec

/-- Modelled from the spec: drawing.py is missing; the explicit numeric
constructor rgb_color(r, g, b, a), validating each channel in [0, 255]. -/
def rgb_color (r g b a : Int) : Except DrawingError Color :=
  if 0 ≤ r ∧ r ≤ 255 ∧ 0 ≤ g ∧ g ≤ 255 ∧ 0 ≤ b ∧ b ≤ 255 ∧ 0 ≤ a ∧ a ≤ 255 then
    .ok ⟨r.toNat, g.toNat, b.toNat, a.toNat⟩
  else .error .invalidColorSpec

/-- The three-argument form of rgb_color, defaulting to full opacity. -/
def rgb_color3 (r g b : Int) : Except DrawingError Color :=
  rgb_color r g b 255

/-- A string names a recognized color, case-insensitively. -/
def isRecognizedName (s : List Char) : Bool :=
  (List.lookup (s.map Char.toLower) namedColors).isSome

/-- A string is a well-formed hash-mark hex color of length 6 or 8. -/
def wellFormedHex (s : List Char) : Bool :=
  match s with
  | '#' :: ds => (decide (ds.length = 6) || decide (ds.length = 8)) && ds.all isHexDigit
  | _ => false

theorem hexDigitVal_toHexDigit (d : Nat) (h : d < 16) :
    hexDigitVal (toHexDigit d) = some d := by
  interval_cases d <;> decide

theorem isHexDigit_toHexDigit (d : Nat) (h : d < 16) :
    isHexDigit (toHexDigit d) = true := by
  unfold isHexDigit
  rw [hexDigitVal_toHexDigit d h]
  rfl

theorem hexVal_toHexDigit (d : Nat) (h : d < 16) :
    hexVal (toHexDigit d) = d := by
  unfold hexVal
  rw [hexDigitVal_toHexDigit d h]
  rfl

/-- C5: parsing the canonical hex string a constructible Color formats to
yields the Color back. -/
theorem C5_color_roundtrip (c : Color) (h : validColor c = true) :
    parse (formatColor c) = .ok c := by
  obtain ⟨r, g, b, a⟩ := c
  simp only [validColor, Bool.and_eq_true, decide_eq_true_eq] at h
  obtain ⟨⟨⟨hr, hg⟩, hb⟩, ha⟩ := h
  have e : parse (formatColor ⟨r, g, b, a⟩) =
      parseHexDigits [toHexDigit (r / 16), toHexDigit (r % 16),
        toHexDigit (g / 16), toHexDigit (g % 16),
        toHexDigit (b / 16), toHexDigit (b % 16),
        toHexDigit (a / 16), toHexDigit (a % 16)] := rfl
  rw [e]
  unfold parseHexDigits
  rw [if_neg (by simp), if_pos ?hc]
  case hc =>
    refine ⟨by simp, ?_⟩
    simp only [List.all_cons, List.all_nil, Bool.and_eq_true]
    refine ⟨?_, ?_, ?_, ?_, ?_, ?_, ?_, ?_, trivial⟩ <;>
      exact isHexDigit_toHexDigit _ (by omega)
  simp [pairAt, List.getD]
  rw [hexVal_toHexDigit (r / 16) (by omega), hexVal_toHexDigit (r % 16) (by omega),
    hexVal_toHexDigit (g / 16) (by omega), hexVal_toHexDigit (g % 16) (by omega),
    hexVal_toHexDigit (b / 16) (by omega), hexVal_toHexDigit (b % 16) (by omega),
    hexVal_toHexDigit (a / 16) (by omega), hexVal_toHexDigit (a % 16) (by omega)]
  omega

theorem C5_color_roundtrip_witness :
    validColor ⟨18, 52, 86, 120⟩ = true ∧
    parse (formatColor ⟨18, 52, 86, 120⟩) = .ok ⟨18, 52, 86, 120⟩ :=
  ⟨by decide, C5_color_roundtrip ⟨18, 52, 86, 120⟩ (by decide)⟩

theorem parseHexDigits_not_ok (ds : List Char)
    (h : wellFormedHex ('#' :: ds) = false) :
    parseHexDigits ds = .error .invalidColorSpec := by
  have h2 : ((decide (ds.length = 6) || decide (ds.length = 8)) && ds.all isHexDigit)
      = false := h
  unfold parseHexDigits
  rw [if_neg, if_neg]
  · intro hcon
    obtain ⟨hl, hall⟩ := hcon
    simp [hl, hall] at h2
  · intro hcon
    obtain ⟨hl, hall⟩ := hcon
    simp [hl, hall] at h2

/-- C6: inputs that are neither a recognized named color nor a well-formed
hex string fail with invalidColorSpec, and rgb_color fails the same way on
any channel outside [0, 255]. -/
theorem C6_invalid_color_rejected :
    (∀ s : List Char, isRecognizedName s = false → wellFormedHex s = false →
      parse s = .error .invalidColorSpec) ∧
    (∀ r g b a : Int,
      ¬(0 ≤ r ∧ r ≤ 255 ∧ 0 ≤ g ∧ g ≤ 255 ∧ 0 ≤ b ∧ b ≤ 255 ∧ 0 ≤ a ∧ a ≤ 255) →
      rgb_color r g b a = .error .invalidColorSpec) := by
  constructor
  · intro s hn hh
    cases s with
    | nil => rfl
    | cons c rest =>
      simp only [parse]
      by_cases hc : c = '#'
      · subst hc
        rw [if_pos rfl]
        exact parseHexDigits_not_ok rest hh
      · rw [if_neg hc]
        cases hl : List.lookup ((c :: rest).map Char.toLower) namedColors with
        | none => rfl
        | some v =>
          exfalso
          unfold isRecognizedName at hn
          rw [hl] at hn
          simp at hn
  · intro r g b a h
    unfold rgb_color
    rw [if_neg h]

theorem C6_invalid_color_rejected_witness :
    parse (("zzz").toList) = .error .invalidColorSpec ∧
    rgb_color 300 0 0 255 = .error .invalidColorSpec :=
  ⟨C6_invalid_color_rejected.1 (("zzz").toList) (by decide) (by decide),
   C6_invalid_color_rejected.2 300 0 0 255 (by decide)⟩

/-- Modelled from the spec: the fraction of the sub-segment length used as
the perpendicular displacement scale; the exact value is unspecified and
treated as a configurable documented default. -/
def crudeFraction : ℚ := 1/4

/-- Modelled from the spec: drawing.py is missing; vertex i of the n-segment
perturbed polyline from A to B.  Vertices are spaced evenly along the
segment; interior vertices are displaced perpendicular to the A-to-B
direction by the injected random value scaled by crudeFraction of the
sub-segment length, while the first and last vertices are pinned exactly to
A and B. -/
def crudeVertex (A B : Point) (n : Nat) (rand : Nat → ℚ) (i : Nat) : Point :=
  if i = 0 then A
  else if i = n then B
  else
    let t : ℚ := (i : ℚ) / (n : ℚ)
    let s : ℚ := crudeFraction * rand i / (n : ℚ)
    ⟨A.x + t * (B.x - A.x) + s * (A.y - B.y),
     A.y + t * (B.y - A.y) + s * (B.x - A.x), none, none⟩

/-- Modelled from the spec: the full vertex list of the perturbed polyline,
n + 1 vertices bounding n connected straight sub-segments. -/
def crudeLineVertices (A B : Point) (n : Nat) (rand : Nat → ℚ) : List Point :=
  (List.range (n + 1)).map (crudeVertex A B n rand)

/-- C2: for every pair of endpoints, every crudity at least 1 and every
injected random source, the generated polyline starts exactly at A and ends
exactly at B. -/
theorem C2_crudeline_endpoints (A B : Point) (n : Nat) (rand : Nat → ℚ)
    (h : 1 ≤ n) :
    (crudeLineVertices A B n rand).head? = some A ∧
    (crudeLineVertices A B n rand).getLast? = some B := by
  constructor
  · unfold crudeLineVertices
    rw [List.range_succ_eq_map]
    simp [crudeVertex]
  · unfold crudeLineVertices
    rw [List.range_succ, List.map_append]
    simp only [List.map_cons, List.map_nil]
    rw [List.getLast?_concat]
    have hn : n ≠ 0 := by omega
    simp [crudeVertex, hn]

theorem C2_crudeline_endpoints_witness :
    1 ≤ 3 ∧
    (crudeLineVertices ⟨0, 0, none, none⟩ ⟨6, 3, none, none⟩ 3
      (fun i => (i : ℚ) / 7)).head? = some ⟨0, 0, none, none⟩ ∧
    (crudeLineVertices ⟨0, 0, none, none⟩ ⟨6, 3, none, none⟩ 3
      (fun i => (i : ℚ) / 7)).getLast? = some ⟨6, 3, none, none⟩ :=
  ⟨by decide,
   (C2_crudeline_endpoints ⟨0, 0, none, none⟩ ⟨6, 3, none, none⟩ 3
     (fun i => (i : ℚ) / 7) (by decide)).1,
   (C2_crudeline_endpoints ⟨0, 0, none, none⟩ ⟨6, 3, none, none⟩ 3
     (fun i => (i : ℚ) / 7) (by decide)).2⟩

/-- Modelled from the spec: the shared visual attributes of a shape; a
missing color means no fill, and line_width defaults to 1. -/
structure Attrs where
  color : Option Color
  outline : Option Color
  line_width : ℚ
deriving DecidableEq, Repr

/-- The documented attribute defaults: no fill, no outline, line width 1. -/
def defaultAttrs : Attrs := ⟨none, none, 1⟩

/-- Modelled from the spec: drawing.py is missing; the closed set of shape
variants the scene can hold. -/
inductive Shape where
  | line (a b : Point) (attrs : Attrs)
  | crudeLine (a b : Point) (crudity : Nat) (attrs : Attrs)
  | circle (center : Point) (radius : ℚ) (attrs : Attrs)
  | rectangle (c1 c2 : Point) (attrs : Attrs)
  | polygon (pts : List Point) (attrs : Attrs)
  | text (anchor : Point) (content : List Char) (face : List Char) (attrs : Attrs)
  | dot (p : Point)
deriving DecidableEq, Repr

/-- Squared distance between two points given by coordinates. -/
def dist2 (px py qx qy : ℚ) : ℚ :=
  (px - qx)^2 + (py - qy)^2

/-- Squared distance from a point to the segment from (ax, ay) to
(qx, qy), via the clamped projection onto the segment. -/
def segDist2 (px py ax ay qx qy : ℚ) : ℚ :=
  let dx := qx - ax
  let dy := qy - ay
  let len2 := dx^2 + dy^2
  if len2 = 0 then dist2 px py ax ay
  else
    let t := ((px - ax) * dx + (py - ay) * dy) / len2
    let tc := max 0 (min 1 t)
    dist2 px py (ax + tc * dx) (ay + tc * dy)

/-- The closed edge list of a polygon, last vertex joined back to first. -/
def polyEdges (pts : List Point) : List (Point × Point) :=
  pts.zip (pts.drop 1 ++ pts.take 1)

/-- The open edge list of a polyline. -/
def polylineEdges (pts : List Point) : List (Point × Point) :=
  pts.zip (pts.drop 1)

/-- Whether a leftward ray from (x, y) crosses the edge e. -/
def edgeCrosses (x y : ℚ) (e : Point × Point) : Bool :=
  (decide (e.1.y ≤ y) != decide (e.2.y ≤ y)) &&
    decide (x < e.1.x + (y - e.1.y) * (e.2.x - e.1.x) / (e.2.y - e.1.y))

/-- Modelled from the spec: scan-fill membership of a point in a closed
polygon, by parity of ray crossings. -/
def inPolygon (pts : List Point) (x y : ℚ) : Bool :=
  (polyEdges pts).countP (edgeCrosses x y) % 2 == 1

/-- Whether (x, y) lies within half the stroke width of the edge e. -/
def nearSegment (w : ℚ) (x y : ℚ) (e : Point × Point) : Bool :=
  decide (segDist2 x y e.1.x e.1.y e.2.x e.2.y ≤ (w / 2)^2)

/-- Modelled from the spec: a Point rendered as a small filled disc; the
default disc size is a configurable documented default. -/
def dotRadius (p : Point) : ℚ :=
  (p.size.getD 2) / 2

/-- The four corner points of an axis-aligned rectangle. -/
def rectCorners (p q : Point) : List Point :=
  [⟨p.x, p.y, none, none⟩, ⟨q.x, p.y, none, none⟩,
   ⟨q.x, q.y, none, none⟩, ⟨p.x, q.y, none, none⟩]

/-- Modelled from the spec: drawing.py is missing; the set of pixels covered
by the fill of a shape.  Text glyph shapes are unspecified in the observed
material, so the model gives Text no fill coverage. -/
def fillCovers (rand : Nat → ℚ) (s : Shape) (x y : ℚ) : Bool :=
  match s with
  | .line _ _ _ => false
  | .crudeLine _ _ _ _ => false
  | .circle c r _ => decide (dist2 x y c.x c.y ≤ r^2)
  | .rectangle p q _ =>
      decide (min p.x q.x ≤ x) && decide (x ≤ max p.x q.x) &&
      decide (min p.y q.y ≤ y) && decide (y ≤ max p.y q.y)
  | .polygon pts _ => inPolygon pts x y
  | .text _ _ _ _ => false
  | .dot p => decide (dist2 x y p.x p.y ≤ (dotRadius p)^2)

/-- Modelled from the spec: drawing.py is missing; the set of pixels covered
by the stroked outline of a shape.  Text glyph shapes are unspecified, so
the model gives Text no stroke coverage. -/
def strokeCovers (rand : Nat → ℚ) (s : Shape) (x y : ℚ) : Bool :=
  match s with
  | .line a b attrs => nearSegment attrs.line_width x y (a, b)
  | .crudeLine a b n attrs =>
      (polylineEdges (crudeLineVertices a b n rand)).any
        (nearSegment attrs.line_width x y)
  | .circle c r attrs =>
      decide (dist2 x y c.x c.y ≤ (r + attrs.line_width / 2)^2) &&
        (decide (r - attrs.line_width / 2 ≤ 0) ||
         decide ((r - attrs.line_width / 2)^2 ≤ dist2 x y c.x c.y))
  | .rectangle p q attrs =>
      (polyEdges (rectCorners p q)).any (nearSegment attrs.line_width x y)
  | .polygon pts attrs => (polyEdges pts).any (nearSegment attrs.line_width x y)
  | .text _ _ _ _ => false
  | .dot _ => false

/-- The fill paint of a shape; none means nothing is filled. -/
def fillColorOf (s : Shape) : Option Color :=
  match s with
  | .line _ _ _ => none
  | .crudeLine _ _ _ _ => none
  | .circle _ _ attrs => attrs.color
  | .rectangle _ _ attrs => attrs.color
  | .polygon _ attrs => attrs.color
  | .text _ _ _ _ => none
  | .dot p => some (p.color.getD ⟨0, 0, 0, 255⟩)

/-- The stroke paint of a shape; line-like shapes stroke with their color
attribute, filled shapes stroke with their outline attribute. -/
def strokeColorOf (s : Shape) : Option Color :=
  match s with
  | .line _ _ attrs => attrs.color
  | .crudeLine _ _ _ attrs => attrs.color
  | .circle _ _ attrs => attrs.outline
  | .rectangle _ _ attrs => attrs.outline
  | .polygon _ attrs => attrs.outline
  | .text _ _ _ attrs => attrs.color
  | .dot _ => none

/-- Modelled from the spec: drawing.py is missing; the transient raster
buffer of RGBA pixels written during a render pass. -/
structure Canvas where
  width : Nat
  height : Nat
  pix : Int → Int → Color

/-- Whether a pixel coordinate lies on the canvas. -/
def inBounds (c : Canvas) (x y : Int) : Bool :=
  decide (0 ≤ x) && decide (x < (c.width : Int)) &&
  decide (0 ≤ y) && decide (y < (c.height : Int))

/-- Modelled from the spec: drawing.py is missing; alpha-over compositing
of a color onto one pixel, with out-of-bounds coordinates clipped and
ignored rather than an error. -/
def compositePixel (c : Canvas) (x y : Int) (col : Color) : Canvas :=
  if inBounds c x y then
    { c with pix := fun u v =>
        if u = x ∧ v = y then blend col (c.pix u v) else c.pix u v }
  else c

/-- Modelled from the spec: a canvas cleared to the background color. -/
def clearCanvas (w h : Nat) (bg : Color) : Canvas :=
  ⟨w, h, fun _ _ => bg⟩

/-- Modelled from the spec: one paint pass writing a color through
compositePixel at every covered pixel; no paint color means no pass. -/
def paintPass (col : Option Color) (cov : Int → Int → Bool) (c : Canvas) : Canvas :=
  match col with
  | none => c
  | some k =>
    { c with pix := fun x y =>
        if cov x y then (compositePixel c x y k).pix x y else c.pix x y }

/-- Modelled from the spec: drawing.py is missing; a shape rasterizes by a
fill pass followed by a stroke pass, every covered pixel going through
compositePixel so alpha-over semantics hold uniformly. -/
def rasterize (rand : Nat → ℚ) (s : Shape) (c : Canvas) : Canvas :=
  paintPass (strokeColorOf s) (fun x y => strokeCovers rand s (x : ℚ) (y : ℚ))
    (paintPass (fillColorOf s) (fun x y => fillCovers rand s (x : ℚ) (y : ℚ)) c)

/-- Modelled from the spec: drawing.py is missing; the scene: canvas
configuration, the append-only ordered shape list, and the most recently
rendered buffer, absent until the first render. -/
structure Drawing where
  width : Nat
  height : Nat
  background : Color
  shapes : List Shape
  buffer : Option Canvas

/-- Modelled from the spec: shape-specific geometry constraints checked by
add: a Polygon needs at least 3 points and a Circle positive radius. -/
def validShape (s : Shape) : Bool :=
  match s with
  | .circle _ r _ => decide (0 < r)
  | .polygon pts _ => decide (3 ≤ pts.length)
  | _ => true

/-- Modelled from the spec: drawing.py is missing; add validates the shape
and appends it, or fails with invalidShape and appends nothing. -/
def addShape (d : Drawing) (s : Shape) : Except DrawingError Drawing :=
  if validShape s then .ok { d with shapes := d.shapes ++ [s] }
  else .error .invalidShape

/-- Modelled from the spec: drawing.py is missing; a render pass clears a
canvas to the background and rasterizes every shape in insertion order. -/
def render (d : Drawing) (rand : Nat → ℚ) : Canvas :=
  d.shapes.foldl (fun c s => rasterize rand s c)
    (clearCanvas d.width d.height d.background)

/-- Modelled from the spec: drawing.py is missing; draw renders the scene
and stores the buffer for observers and later export. -/
def draw (d : Drawing) (rand : Nat → ℚ) : Drawing :=
  { d with buffer := some (render d rand) }

/-- Modelled from the spec: the portable encoded form of a raster buffer,
deterministic in the pixel data. -/
structure EncodedImage where
  width : Nat
  height : Nat
  rows : List (List Color)
deriving DecidableEq, Repr

/-- Modelled from the spec: drawing.py is missing; deterministic encoding of
the raster buffer, reading every in-bounds pixel row by row. -/
def encodeImage (c : Canvas) : EncodedImage :=
  ⟨c.width, c.height,
    (List.range c.height).map (fun y =>
      (List.range c.width).map (fun x => c.pix (x : Int) (y : Int)))⟩

/-- Modelled from the spec: drawing.py is missing; export encodes the most
recently rendered buffer and fails with notRendered when no render has
happened yet. -/
def write_file (d : Drawing) : Except DrawingError EncodedImage :=
  match d.buffer with
  | none => .error .notRendered
  | some c => .ok (encodeImage c)

/-- Modelled from the spec: to_file is the same export entry point. -/
def to_file (d : Drawing) : Except DrawingError EncodedImage :=
  write_file d

/-- Modelled from the spec: the default background color; its exact value is
unspecified and treated as a configurable documented default. -/
def defaultBackground : Color := ⟨255, 255, 255, 255⟩

/-- Modelled from the spec: drawing.py is missing; Drawing construction with
width, height and background all optional; the observed default width is
500. -/
def mkDrawing (w h : Option Nat) (bg : Option Color) : Drawing :=
  ⟨w.getD 500, h.getD 500, bg.getD defaultBackground, [], none⟩

/-- A constant injectable random source used by concrete witnesses. -/
def rand0 : Nat → ℚ := fun _ => 0

theorem paintPass_width (col : Option Color) (cov : Int → Int → Bool) (c : Canvas) :
    (paintPass col cov c).width = c.width := by
  cases col <;> rfl

theorem paintPass_height (col : Option Color) (cov : Int → Int → Bool) (c : Canvas) :
    (paintPass col cov c).height = c.height := by
  cases col <;> rfl

theorem rasterize_width (rand : Nat → ℚ) (s : Shape) (c : Canvas) :
    (rasterize rand s c).width = c.width := by
  unfold rasterize
  rw [paintPass_width, paintPass_width]

theorem rasterize_height (rand : Nat → ℚ) (s : Shape) (c : Canvas) :
    (rasterize rand s c).height = c.height := by
  unfold rasterize
  rw [paintPass_height, paintPass_height]

theorem foldl_rasterize_width (rand : Nat → ℚ) (l : List Shape) (c : Canvas) :
    (l.foldl (fun c s => rasterize rand s c) c).width = c.width := by
  induction l generalizing c with
  | nil => rfl
  | cons s t ih =>
    simp only [List.foldl_cons]
    rw [ih, rasterize_width]

theorem foldl_rasterize_height (rand : Nat → ℚ) (l : List Shape) (c : Canvas) :
    (l.foldl (fun c s => rasterize rand s c) c).height = c.height := by
  induction l generalizing c with
  | nil => rfl
  | cons s t ih =>
    simp only [List.foldl_cons]
    rw [ih, rasterize_height]

theorem rasterize_pix_fill (rand : Nat → ℚ) (s : Shape) (c : Canvas)
    (x y : Int) (k : Color)
    (hs : strokeColorOf s = none) (hf : fillColorOf s = some k)
    (hcov : fillCovers rand s (x : ℚ) (y : ℚ) = true)
    (hb : inBounds c x y = true) (ha : k.a = 255) :
    (rasterize rand s c).pix x y = k := by
  unfold rasterize
  rw [hs, hf]
  simp only [paintPass]
  rw [if_pos hcov]
  unfold compositePixel
  rw [if_pos hb]
  simp only []
  rw [if_pos (show True ∧ True from ⟨trivial, trivial⟩)]
  exact blend_opaque k _ ha

/-- C8: shapes rasterize in insertion order with painter-style compositing:
with two overlapping fully opaque shapes added in order S1 then S2, every
canvas pixel covered by both carries the color of S2 in the rendered
buffer. -/
theorem C8_painter_order (w h : Nat) (bg : Color) (pre : List Shape)
    (S1 S2 : Shape) (rand : Nat → ℚ) (k1 k2 : Color) (x y : Int)
    (hf1 : fillColorOf S1 = some k1) (ha1 : k1.a = 255)
    (hcov1 : fillCovers rand S1 (x : ℚ) (y : ℚ) = true)
    (hf2 : fillColorOf S2 = some k2) (ha2 : k2.a = 255)
    (hs2 : strokeColorOf S2 = none)
    (hcov2 : fillCovers rand S2 (x : ℚ) (y : ℚ) = true)
    (hx0 : 0 ≤ x) (hxw : x < (w : Int)) (hy0 : 0 ≤ y) (hyh : y < (h : Int)) :
    (render ⟨w, h, bg, pre ++ [S1, S2], none⟩ rand).pix x y = k2 := by
  have e : render ⟨w, h, bg, pre ++ [S1, S2], none⟩ rand =
      rasterize rand S2 (rasterize rand S1
        (pre.foldl (fun c s => rasterize rand s c) (clearCanvas w h bg))) := by
    show (pre ++ [S1, S2]).foldl (fun c s => rasterize rand s c)
        (clearCanvas w h bg) = _
    rw [List.foldl_append]
    rfl
  rw [e]
  have hwidth : (rasterize rand S1
      (pre.foldl (fun c s => rasterize rand s c) (clearCanvas w h bg))).width = w := by
    rw [rasterize_width, foldl_rasterize_width]
    rfl
  have hheight : (rasterize rand S1
      (pre.foldl (fun c s => rasterize rand s c) (clearCanvas w h bg))).height = h := by
    rw [rasterize_height, foldl_rasterize_height]
    rfl
  have hb : inBounds (rasterize rand S1
      (pre.foldl (fun c s => rasterize rand s c) (clearCanvas w h bg))) x y = true := by
    unfold inBounds
    rw [hwidth, hheight]
    simp [hx0, hxw, hy0, hyh]
  exact rasterize_pix_fill rand S2 _ x y k2 hs2 hf2 hcov2 hb ha2

theorem C8_painter_order_witness :
    (render ⟨4, 4, ⟨0, 0, 0, 255⟩,
      [Shape.rectangle ⟨0, 0, none, none⟩ ⟨3, 3, none, none⟩
          ⟨some ⟨200, 0, 0, 255⟩, none, 1⟩,
        Shape.rectangle ⟨1, 1, none, none⟩ ⟨3, 3, none, none⟩
          ⟨some ⟨0, 0, 200, 255⟩, none, 1⟩], none⟩ rand0).pix 2 2 =
      ⟨0, 0, 200, 255⟩ :=
  C8_painter_order 4 4 ⟨0, 0, 0, 255⟩ []
    (Shape.rectangle ⟨0, 0, none, none⟩ ⟨3, 3, none, none⟩
      ⟨some ⟨200, 0, 0, 255⟩, none, 1⟩)
    (Shape.rectangle ⟨1, 1, none, none⟩ ⟨3, 3, none, none⟩
      ⟨some ⟨0, 0, 200, 255⟩, none, 1⟩)
    rand0 ⟨200, 0, 0, 255⟩ ⟨0, 0, 200, 255⟩ 2 2
    rfl rfl (by decide) rfl rfl rfl (by decide)
    (by decide) (by decide) (by decide) (by decide)

/-- C9: compositing a color at an out-of-bounds coordinate is clipped to a
no-op: it raises no error, returns the canvas unchanged, and so leaves every
pixel of the buffer as it was. -/
theorem C9_oob_clipped (c : Canvas) (x y : Int) (col : Color)
    (h : inBounds c x y = false) :
    compositePixel c x y col = c ∧
    ∀ u v : Int, (compositePixel c x y col).pix u v = c.pix u v := by
  have e : compositePixel c x y col = c := by
    unfold compositePixel
    rw [if_neg]
    simp [h]
  exact ⟨e, fun u v => by rw [e]⟩

theorem C9_oob_clipped_witness :
    inBounds (clearCanvas 3 3 defaultBackground) 5 1 = false ∧
    compositePixel (clearCanvas 3 3 defaultBackground) 5 1 ⟨9, 9, 9, 255⟩ =
      clearCanvas 3 3 defaultBackground :=
  ⟨by decide,
   (C9_oob_clipped (clearCanvas 3 3 defaultBackground) 5 1 ⟨9, 9, 9, 255⟩
     (by decide)).1⟩

/-- C7: add validates shape geometry and either appends the full shape or
fails with invalidShape appending nothing; there is no partial append. -/
theorem C7_add_validation (d : Drawing) (s : Shape) :
    (validShape s = true →
      addShape d s = .ok { d with shapes := d.shapes ++ [s] }) ∧
    (validShape s = false → addShape d s = .error .invalidShape) := by
  constructor
  · intro hv
    unfold addShape
    rw [if_pos hv]
  · intro hv
    unfold addShape
    rw [if_neg]
    simp [hv]

theorem C7_add_validation_witness :
    addShape (mkDrawing none none none)
      (Shape.polygon [⟨0, 0, none, none⟩, ⟨1, 0, none, none⟩, ⟨0, 1, none, none⟩]
        defaultAttrs) =
      .ok { mkDrawing none none none with
        shapes := [Shape.polygon
          [⟨0, 0, none, none⟩, ⟨1, 0, none, none⟩, ⟨0, 1, none, none⟩]
          defaultAttrs] } ∧
    addShape (mkDrawing none none none)
      (Shape.polygon [⟨0, 0, none, none⟩] defaultAttrs) =
      .error .invalidShape :=
  ⟨(C7_add_validation (mkDrawing none none none)
      (Shape.polygon [⟨0, 0, none, none⟩, ⟨1, 0, none, none⟩, ⟨0, 1, none, none⟩]
        defaultAttrs)).1 (by decide),
   (C7_add_validation (mkDrawing none none none)
      (Shape.polygon [⟨0, 0, none, none⟩] defaultAttrs)).2 (by decide)⟩

/-- C3: export on a freshly constructed Drawing with no prior draw fails
with notRendered; after a draw, export encodes the most recently rendered
buffer, even after further shapes are added, without re-rendering. -/
theorem C3_export_lifecycle :
    (∀ (w h : Option Nat) (bg : Option Color),
      write_file (mkDrawing w h bg) = .error .notRendered) ∧
    (∀ (d : Drawing) (rand : Nat → ℚ),
      write_file (draw d rand) = .ok (encodeImage (render d rand))) ∧
    (∀ (d : Drawing) (rand : Nat → ℚ) (s : Shape) (d2 : Drawing),
      addShape (draw d rand) s = .ok d2 →
      write_file d2 = .ok (encodeImage (render d rand))) := by
  refine ⟨fun w h bg => rfl, fun d rand => rfl, fun d rand s d2 hadd => ?_⟩
  unfold addShape at hadd
  by_cases hv : validShape s = true
  · rw [if_pos hv] at hadd
    injection hadd with h2
    subst h2
    rfl
  · rw [if_neg hv] at hadd
    simp at hadd

theorem C3_export_lifecycle_witness :
    write_file (mkDrawing none none none) = .error .notRendered ∧
    write_file (draw (mkDrawing none none none) rand0) =
      .ok (encodeImage (render (mkDrawing none none none) rand0)) ∧
    write_file { draw (mkDrawing none none none) rand0 with
        shapes := (draw (mkDrawing none none none) rand0).shapes ++
          [Shape.dot ⟨1, 1, none, none⟩] } =
      .ok (encodeImage (render (mkDrawing none none none) rand0)) :=
  ⟨C3_export_lifecycle.1 none none none,
   C3_export_lifecycle.2.1 (mkDrawing none none none) rand0,
   C3_export_lifecycle.2.2 (mkDrawing none none none) rand0
     (Shape.dot ⟨1, 1, none, none⟩) _ rfl⟩

/-- C10: constructing a Drawing with no arguments succeeds with default
width 500 and the default background, holds no shapes, accepts new shapes,
and can be drawn and then exported. -/
theorem C10_default_drawing :
    (mkDrawing none none none).width = 500 ∧
    (mkDrawing none none none).height = 500 ∧
    (mkDrawing none none none).background = defaultBackground ∧
    (mkDrawing none none none).shapes = [] ∧
    addShape (mkDrawing none none none) (Shape.dot ⟨1, 1, none, none⟩) =
      .ok { mkDrawing none none none with
        shapes := [Shape.dot ⟨1, 1, none, none⟩] } ∧
    write_file (draw (mkDrawing none none none) rand0) =
      .ok (encodeImage (render (mkDrawing none none none) rand0)) :=
  ⟨rfl, rfl, rfl, rfl, rfl, rfl⟩
